/-
Verification of the live-state investigation and reconciliation engine of
`pkg/tasks/probes.go` (kubeone).  The Go source is shallowly embedded: pure
helpers become Lean functions, remote command execution and the external
status collaborators (ssh connection, yaml decoding, semver parsing,
API-server / etcd status queries, Kubernetes node listing) are passed in as
explicit function parameters, and the mutation of the shared `LiveCluster`
aggregate becomes explicit state passing over a list of hosts.
-/
import Mathlib

namespace Probes

/-- Modelled from the spec: the `pkg/state` status-bitmask flag constants
(`SystemDStatusUnknown`, `SystemDStatusRunning`, ..., `PodRunning`).  The
package `pkg/state` is not part of the given source; the spec describes the
bitmask as "an accumulating set of independent flags ... combined by logical
OR", so the constants are modelled as distinct powers of two. -/
def SystemDStatusUnknown : Nat := 1

/-- Modelled from the spec: see `SystemDStatusUnknown`. -/
def SystemDStatusRunning : Nat := 2

/-- Modelled from the spec: see `SystemDStatusUnknown`. -/
def SystemDStatusRestarting : Nat := 4

/-- Modelled from the spec: see `SystemDStatusUnknown`.  The misspelling
`SystemdDStatusDead` is the source's. -/
def SystemdDStatusDead : Nat := 8

/-- Modelled from the spec: see `SystemDStatusUnknown`. -/
def SystemDStatusActive : Nat := 16

/-- Modelled from the spec: see `SystemDStatusUnknown`. -/
def ComponentInstalled : Nat := 32

/-- Modelled from the spec: see `SystemDStatusUnknown`. -/
def KubeletInitialized : Nat := 64

/-- Modelled from the spec: see `SystemDStatusUnknown`. -/
def PodRunning : Nat := 128

/-- Result of `ssh.Connection.Exec`: `(stdout, stderr, exitCode, error)`.
The error is modelled as `Option String` (`none` = Go `nil`). -/
structure ExecResult where
  stdout : String
  stderr : String
  exitcode : Int
  err : Option String
  deriving DecidableEq

/-- Parsed semantic version (`semver.Version`); only the fact that a value
was parsed (or the zero value assigned) matters to the probes. -/
structure Version where
  major : Nat
  minor : Nat
  patch : Nat
  deriving DecidableEq

/-- Zero value `&semver.Version{}` assigned on container-linux hosts. -/
def Version.zero : Version := ⟨0, 0, 0⟩

/-- Errors surfaced by the probe functions.  `versionWas raw msg` models
`errors.Wrapf(err, "version was: %q", out)` (the wrapped error carries the
raw command output); `semverFailed msg` models returning the bare
`semver.NewVersion` error, which does not carry the raw output. -/
inductive ProbeError where
  | execFailed (msg : String)
  | decodeFailed (msg : String)
  | semverFailed (msg : String)
  | versionWas (raw : String) (msg : String)
  deriving DecidableEq

/-- The per-host environment: one remote connection (`exec` models
`conn.Exec`) plus the two external parsing collaborators used by the
probes: `yamlDecode` models `yaml.Unmarshal` into a string map (given as an
association list), `semverNewVersion` models `semver.NewVersion`. -/
structure ProbeEnv where
  exec : String → ExecResult
  yamlDecode : String → Except String (List (String × String))
  semverNewVersion : String → Except String Version

/-- Go map indexing `m["key"]` with the zero value `""` for missing keys. -/
def mget (m : List (String × String)) (k : String) : String :=
  match m.find? (fun p => p.1 = k) with
  | some p => p.2
  | none => ""

/-- The formatted command `fmt.Sprintf(systemdShowStatusCMD, service)`. -/
def systemdShowStatusFor (service : String) : String :=
  "systemctl show " ++ service ++ " -p LoadState,ActiveState,SubState"

/-- The bitmask computation of `systemdStatus` from the three decoded map
fields (lines 350-372 of `probes.go`): `ComponentInstalled` iff
`LoadState == "loaded"`, `SystemDStatusActive` for `ActiveState` in
`{active, activating}`, and the `SubState` switch choosing exactly one of
the four exclusive-group flags. -/
def statusBitsOf (loadState activeState subState : String) : Nat :=
  let status : Nat := 0
  let status := if loadState = "loaded" then status ||| ComponentInstalled else status
  let status :=
    if activeState = "active" ∨ activeState = "activating" then
      status ||| SystemDStatusActive
    else status
  if subState = "running" then status ||| SystemDStatusRunning
  else if subState = "auto-restart" then status ||| SystemDStatusRestarting
  else if subState = "dead" then status ||| SystemdDStatusDead
  else status ||| SystemDStatusUnknown

/-- Number of flags of the exclusive group `{Running, Restarting, Dead,
Unknown}` present in a status bitmask. -/
def groupFlagCount (st : Nat) : Nat :=
  (if st &&& SystemDStatusRunning ≠ 0 then 1 else 0) +
  (if st &&& SystemDStatusRestarting ≠ 0 then 1 else 0) +
  (if st &&& SystemdDStatusDead ≠ 0 then 1 else 0) +
  (if st &&& SystemDStatusUnknown ≠ 0 then 1 else 0)

/-- Embedding of `systemdStatus(conn, service)` (lines 338-373): run the
show command, on transport error fail; normalize `=` to `: `, decode the
structured text, and compute the bitmask from the three fields.  Returns
the list of executed commands alongside the result. -/
def systemdStatus (env : ProbeEnv) (service : String) :
    List String × Except ProbeError Nat :=
  let cmd := systemdShowStatusFor service
  let r := env.exec cmd
  ([cmd],
    match r.err with
    | some e => .error (.execFailed e)
    | none =>
      match env.yamlDecode (r.stdout.replace "=" ": ") with
      | .error e => .error (.decodeFailed e)
      | .ok m =>
        .ok (statusBitsOf (mget m "LoadState") (mget m "ActiveState")
              (mget m "SubState")))

/-- Modelled from the spec: the `kubeoneapi.OperatingSystemName*` constants
(package `pkg/apis/kubeone`, not in the given source).  The spec calls them
the "operating-system family tag": RPM-family (`centos`, `rhel`),
DPKG-family (`ubuntu`), the immutable-OS family (`flatcar`, `coreos`), and
anything else. -/
inductive OperatingSystemName where
  | centos
  | rhel
  | ubuntu
  | flatcar
  | coreos
  | other (name : String)
  deriving DecidableEq

/-- Desired-state entry `kubeoneapi.HostConfig` (hostname, OS tag, mutable
leader flag). -/
structure HostConfig where
  hostname : String
  operatingSystem : OperatingSystemName
  isLeader : Bool
  deriving DecidableEq

/-- A component record of `state.Host`: status bitmask plus optional parsed
version. -/
structure ComponentStatus where
  status : Nat
  version : Option Version
  deriving DecidableEq

/-- A `state.Host` (LiveHost): reference to its config plus the four
component records and the `IsInCluster` flag. -/
structure Host where
  config : HostConfig
  containerRuntime : ComponentStatus
  kubelet : ComponentStatus
  apiServer : ComponentStatus
  etcd : ComponentStatus
  isInCluster : Bool
  deriving DecidableEq

/-- Command constant `dockerVersionDPKG`. -/
def dockerVersionDPKG : String :=
  "dpkg-query --show --showformat=\x27$\x7bVersion\x7d\x27 docker-ce | cut -d: -f2 | cut -d~ -f1"

/-- Command constant `dockerVersionRPM`. -/
def dockerVersionRPM : String :=
  "rpm -qa --queryformat \x27%\x7bRPMTAG_VERSION\x7d\x27 docker-ce"

/-- Command constant `kubeletVersionDPKG`. -/
def kubeletVersionDPKG : String :=
  "dpkg-query --show --showformat=\x27$\x7bVersion\x7d\x27 kubelet | cut -d- -f1"

/-- Command constant `kubeletVersionRPM`. -/
def kubeletVersionRPM : String :=
  "rpm -qa --queryformat \x27%\x7bRPMTAG_VERSION\x7d\x27 kubelet"

/-- Command constant `kubeletVersionCLI`. -/
def kubeletVersionCLI : String :=
  "kubelet --version | cut -d\x27 \x27 -f2"

/-- Command constant `kubeletInitializedCMD`. -/
def kubeletInitializedCMD : String :=
  "test -f /etc/kubernetes/kubelet.conf"

/-- Whitespace trimming `strings.TrimSpace` (Go standard library,
external to the given source): drop unicode whitespace from both ends. -/
def trimSpace (s : String) : String :=
  ⟨((s.data.dropWhile Char.isWhitespace).reverse.dropWhile Char.isWhitespace).reverse⟩

/-- The tail of `detectDockerStatusVersion` once a version command was
selected (lines 270-281): run it, fail on transport error, trim the output,
parse it with `semver.NewVersion`, and on parse failure wrap the error with
the raw output (`errors.Wrapf(err, "version was: %q", out)`). -/
def dockerVersionRun (env : ProbeEnv) (cmd : String) (host : Host) :
    Except ProbeError Host :=
  let r := env.exec cmd
  match r.err with
  | some e => .error (.execFailed e)
  | none =>
    match env.semverNewVersion (trimSpace r.stdout) with
    | .error e => .error (.versionWas r.stdout e)
    | .ok v => .ok { host with containerRuntime.version := some v }

/-- Embedding of `detectDockerStatusVersion` (lines 243-282).  Returns the
executed commands alongside the result. -/
def detectDockerStatusVersion (env : ProbeEnv) (host : Host) :
    List String × Except ProbeError Host :=
  match systemdStatus env "docker" with
  | (tr, .error e) => (tr, .error e)
  | (tr, .ok st) =>
    let host := { host with containerRuntime.status := st }
    if st &&& ComponentInstalled = 0 then
      (tr, .ok host)
    else
      match host.config.operatingSystem with
      | .centos | .rhel =>
        (tr ++ [dockerVersionRPM], dockerVersionRun env dockerVersionRPM host)
      | .ubuntu =>
        (tr ++ [dockerVersionDPKG], dockerVersionRun env dockerVersionDPKG host)
      | .flatcar | .coreos =>
        (tr, .ok { host with containerRuntime.version := some Version.zero })
      | .other _ => (tr, .ok host)

/-- The tail of `detectKubeletStatusVersion` (lines 309-320): same shape as
`dockerVersionRun`, but the `semver.NewVersion` error is returned bare
(`return err`), without the raw output attached. -/
def kubeletVersionRun (env : ProbeEnv) (cmd : String) (host : Host) :
    Except ProbeError Host :=
  let r := env.exec cmd
  match r.err with
  | some e => .error (.execFailed e)
  | none =>
    match env.semverNewVersion (trimSpace r.stdout) with
    | .error e => .error (.semverFailed e)
    | .ok v => .ok { host with kubelet.version := some v }

/-- Embedding of `detectKubeletStatusVersion` (lines 284-321). -/
def detectKubeletStatusVersion (env : ProbeEnv) (host : Host) :
    List String × Except ProbeError Host :=
  match systemdStatus env "kubelet" with
  | (tr, .error e) => (tr, .error e)
  | (tr, .ok st) =>
    let host := { host with kubelet.status := st }
    if st &&& ComponentInstalled = 0 then
      (tr, .ok host)
    else
      match host.config.operatingSystem with
      | .centos | .rhel =>
        (tr ++ [kubeletVersionRPM], kubeletVersionRun env kubeletVersionRPM host)
      | .ubuntu =>
        (tr ++ [kubeletVersionDPKG], kubeletVersionRun env kubeletVersionDPKG host)
      | .flatcar | .coreos =>
        (tr ++ [kubeletVersionCLI], kubeletVersionRun env kubeletVersionCLI host)
      | .other _ => (tr, .ok host)

/-- Embedding of `detectKubeletInitialized` (lines 323-336): run the marker
command; if an error is reported together with exit code `<= 0`, propagate
it; otherwise set the `KubeletInitialized` bit exactly when the exit code
is `0`. -/
def detectKubeletInitialized (env : ProbeEnv) (host : Host) :
    List String × Except ProbeError Host :=
  let r := env.exec kubeletInitializedCMD
  ([kubeletInitializedCMD],
    if r.err.isSome ∧ r.exitcode ≤ 0 then
      .error (.execFailed (r.err.getD ""))
    else if r.exitcode = 0 then
      .ok { host with kubelet.status := host.kubelet.status ||| KubeletInitialized }
    else .ok host)

/-- Report of the external API-server health collaborator
(`apiserverstatus.Get`): only the `Health` field is consulted by the
caller. -/
structure ApiserverReport where
  health : Bool
  deriving DecidableEq

/-- Report of the external etcd status collaborator (`etcdstatus.Get`):
membership and health for one host. -/
structure EtcdReport where
  member : Bool
  health : Bool
  deriving DecidableEq

/-- The external collaborators consumed by `investigateCluster`.
`apiserverGet` models `apiserverstatus.Get` returning a report together
with an error (the caller discards the error); `etcdMemberList` models the
one-time `etcdstatus.MemberList` fetch; `etcdGet` models `etcdstatus.Get`
given the pre-fetched member list, with `none` standing for the nil report
returned on a per-host lookup failure (the caller discards the error and
nil-checks the report); `nodeList` models listing the control-plane-labeled
node objects, returning their names. -/
structure InvInput where
  apiserverGet : HostConfig → ApiserverReport × Option String
  etcdMemberList : Except String (List String)
  etcdGet : List String → HostConfig → Option EtcdReport
  nodeList : Except String (List String)

/-- Errors returned by `investigateCluster`. -/
inductive InvErr where
  | notProvisioned
  | quorumLost
  | memberListFailed (msg : String)
  | nodeListFailed (msg : String)
  deriving DecidableEq

/-- Modelled from the spec: `state.Cluster.IsProvisioned` (package
`pkg/state`, not in the given source) — "at least one host has Installed
set for both runtime and kubelet". -/
def isProvisioned (hosts : List Host) : Bool :=
  hosts.any fun h =>
    (h.containerRuntime.status &&& ComponentInstalled != 0) &&
    (h.kubelet.status &&& ComponentInstalled != 0)

/-- The first reconciliation loop clears every host's leader flag
(lines 145-147). -/
def clearLeaderHost (h : Host) : Host :=
  { h with config.isLeader := false }

/-- The leader-election loop (lines 149-160): iterate hosts in order,
query API-server health discarding the query error, set the `PodRunning`
bit on every healthy host, and mark the first healthy host (while
`leaderElected` is still false) as leader.  Returns the updated hosts and
the final `leaderElected` flag. -/
def electLeader (q : HostConfig → ApiserverReport × Option String) :
    List Host → Bool → List Host × Bool
  | [], elected => ([], elected)
  | h :: t, elected =>
    if ((q h.config).1).health then
      let h := { h with
        apiServer.status := h.apiServer.status ||| PodRunning,
        config := if elected then h.config else { h.config with isLeader := true } }
      let rest := electLeader q t true
      (h :: rest.1, rest.2)
    else
      let rest := electLeader q t elected
      (h :: rest.1, rest.2)

/-- One host of the etcd phase (lines 172-180): query etcd status
discarding the error, and if a non-nil report shows both membership and
health, set the `PodRunning` bit on the host's Etcd record. -/
def etcdHostStep (q : HostConfig → Option EtcdReport) (h : Host) : Host :=
  match q h.config with
  | some st =>
    if st.member && st.health then
      { h with etcd.status := h.etcd.status ||| PodRunning }
    else h
  | none => h

/-- The etcd phase loop over all hosts. -/
def etcdPhase (q : HostConfig → Option EtcdReport) (hosts : List Host) :
    List Host :=
  hosts.map (etcdHostStep q)

/-- The node-marking loop (lines 207-217): for every listed node name that
is a known host identity, set `IsInCluster` on every host with that
hostname. -/
def markInCluster (names : List String) (known : Finset String)
    (hosts : List Host) : List Host :=
  names.foldl
    (fun hs n =>
      if n ∈ known then
        hs.map fun h =>
          if h.config.hostname = n then { h with isInCluster := true } else h
      else hs)
    hosts

/-- Marks the first `true` of a boolean list, clearing all others: the
shape of the leader flags produced by first-healthy-in-order election. -/
def firstTrue : List Bool → List Bool
  | [] => []
  | b :: t => if b then true :: t.map (fun _ => false) else false :: firstTrue t

/-- Embedding of `investigateCluster` (lines 138-241): refuse to run on a
non-provisioned cluster; clear all leader flags; run leader election and
fail with the quorum-lost error if no host is healthy; fetch the etcd
member list (failure aborts); run the per-host etcd phase; list the
control-plane nodes (failure aborts); mark hosts in the cluster and
compute the two identity diff sets.  Returns the post-call host list
together with either the error or the two diff sets
(hosts-to-be-provisioned, nodes-to-be-removed). -/
def investigateCluster (inp : InvInput) (hosts : List Host) :
    List Host × Except InvErr (Finset String × Finset String) :=
  if !isProvisioned hosts then
    (hosts, .error .notProvisioned)
  else
    let cleared := hosts.map clearLeaderHost
    let r := electLeader inp.apiserverGet cleared false
    if !r.2 then
      (r.1, .error .quorumLost)
    else
      match inp.etcdMemberList with
      | .error e => (r.1, .error (.memberListFailed e))
      | .ok members =>
        let hosts3 := etcdPhase (inp.etcdGet members) r.1
        match inp.nodeList with
        | .error e => (hosts3, .error (.nodeListFailed e))
        | .ok names =>
          let knownHosts := (hosts3.map fun h => h.config.hostname).toFinset
          let knownNodes := names.toFinset
          (markInCluster names knownHosts hosts3,
            .ok (knownHosts \ knownNodes, knownNodes \ knownHosts))

/-- The effect of the node-marking loop on one host: fold the listed node
names over the host, setting `isInCluster` whenever a known name matches
the host's hostname. -/
def mark1 (names : List String) (known : Finset String) (h : Host) : Host :=
  names.foldl
    (fun h n =>
      if n ∈ known then
        (if h.config.hostname = n then { h with isInCluster := true } else h)
      else h)
    h

/-- Concrete fixtures used by the witnesses. -/
def cfgA : HostConfig := ⟨"hostA", .ubuntu, false⟩

def cfgB : HostConfig := ⟨"hostB", .ubuntu, false⟩

def cfgC : HostConfig := ⟨"hostC", .ubuntu, false⟩

/-- A live host as built by `runProbes` after successful probing: both
runtime and kubelet installed, nothing else set. -/
def mkLiveHost (c : HostConfig) : Host :=
  ⟨c, ⟨ComponentInstalled, none⟩, ⟨ComponentInstalled, none⟩, ⟨0, none⟩, ⟨0, none⟩, false⟩

def hostsABC : List Host := [mkLiveHost cfgA, mkLiveHost cfgB, mkLiveHost cfgC]

/-- API-server collaborator: host A unhealthy, every other host healthy. -/
def apiHealthyBC : HostConfig → ApiserverReport × Option String :=
  fun c => if c.hostname = "hostA" then (⟨false⟩, none) else (⟨true⟩, none)

def inpABC : InvInput := ⟨apiHealthyBC, .ok [], fun _ _ => none, .ok []⟩

def apiNoneHealthy : HostConfig → ApiserverReport × Option String :=
  fun _ => (⟨false⟩, none)

def inpNoHealth : InvInput := ⟨apiNoneHealthy, .ok [], fun _ _ => none, .ok []⟩

/-- API-server collaborator in which every query fails: the zero-value
report (health false) together with an error. -/
def apiAllErr : HostConfig → ApiserverReport × Option String :=
  fun _ => (⟨false⟩, some "connection refused")

def inpAllErr : InvInput := ⟨apiAllErr, .ok [], fun _ _ => none, .ok []⟩

/-- The same queries with the errors dropped. -/
def apiAllErrStripped : HostConfig → ApiserverReport × Option String :=
  fun _ => (⟨false⟩, none)

def inpEtcdErr : InvInput :=
  ⟨apiHealthyBC, .error "member list failed", fun _ _ => none, .ok []⟩

def hosts123 : List Host :=
  [mkLiveHost ⟨"h1", .ubuntu, false⟩, mkLiveHost ⟨"h2", .ubuntu, false⟩,
    mkLiveHost ⟨"h3", .ubuntu, false⟩]

def inpNodes234 : InvInput :=
  ⟨fun _ => (⟨true⟩, none), .ok [], fun _ _ => none, .ok ["h2", "h3", "h4"]⟩

def hostBare : Host := mkLiveHost cfgA

/-- Init-check environments: marker command succeeds / fails logically /
fails with transport error (negative sentinel) / reports an error together
with exit code zero (the "connection error" case of the source comment). -/
def envInitOK : ProbeEnv :=
  ⟨fun _ => ⟨"", "", 0, none⟩, fun _ => .error "unused", fun _ => .error "unused"⟩

def envInitPos : ProbeEnv :=
  ⟨fun _ => ⟨"", "", 1, none⟩, fun _ => .error "unused", fun _ => .error "unused"⟩

def envInitNeg : ProbeEnv :=
  ⟨fun _ => ⟨"", "", -1, some "session problem"⟩, fun _ => .error "unused",
    fun _ => .error "unused"⟩

def envInitErrZero : ProbeEnv :=
  ⟨fun _ => ⟨"", "", 0, some "connection error"⟩, fun _ => .error "unused",
    fun _ => .error "unused"⟩

/-- Structured-text decoder fixture: a systemd unit that is loaded, active
and running. -/
def yamlLoadedActiveRunning : String → Except String (List (String × String)) :=
  fun _ =>
    .ok [("LoadState", "loaded"), ("ActiveState", "active"), ("SubState", "running")]

/-- Semver fixture: accepts exactly "1.2.3". -/
def semverStrict : String → Except String Version :=
  fun v => if v = "1.2.3" then .ok ⟨1, 2, 3⟩ else .error "Invalid Semantic Version"

def envVersionOK : ProbeEnv :=
  ⟨fun _ => ⟨" 1.2.3\n", "", 0, none⟩, yamlLoadedActiveRunning, semverStrict⟩

def envBadVersion : ProbeEnv :=
  ⟨fun _ => ⟨"garbage", "", 0, none⟩, yamlLoadedActiveRunning, semverStrict⟩

def hostFlat : Host := mkLiveHost ⟨"flat1", .flatcar, false⟩

def hostOther : Host := mkLiveHost ⟨"other1", .other "sles", false⟩

def hostUbu : Host := mkLiveHost ⟨"ubu1", .ubuntu, false⟩

theorem and_two_pow_ne_zero (x k : Nat) : x &&& 2 ^ k ≠ 0 ↔ x.testBit k := by
  rw [Nat.and_two_pow]
  cases h : x.testBit k <;> simp [h]

theorem lor_two_pow_and_self (x k : Nat) : (x ||| 2 ^ k) &&& 2 ^ k ≠ 0 := by
  rw [and_two_pow_ne_zero]
  simp [Nat.testBit_lor]

theorem lor_two_pow_and_other (x : Nat) {j k : Nat} (h : j ≠ k) :
    (x ||| 2 ^ j) &&& 2 ^ k ≠ 0 ↔ x &&& 2 ^ k ≠ 0 := by
  rw [and_two_pow_ne_zero, and_two_pow_ne_zero]
  simp [Nat.testBit_lor, Nat.testBit_two_pow_of_ne h]

/-- C3: for every status text the StatusDecoder successfully decodes, the
resulting bitmask has exactly one of the exclusive-group flags `{Running,
Restarting, Dead, Unknown}` set: `Running` iff `SubState == "running"`,
`Restarting` iff `SubState == "auto-restart"`, `Dead` iff
`SubState == "dead"`, and `Unknown` iff none of those three matched;
moreover every bitmask returned successfully by `systemdStatus` is
`statusBitsOf` of the three decoded fields. -/
theorem statusDecoder_exclusive_group (l a s : String) :
    groupFlagCount (statusBitsOf l a s) = 1 ∧
    (statusBitsOf l a s &&& SystemDStatusRunning ≠ 0 ↔ s = "running") ∧
    (statusBitsOf l a s &&& SystemDStatusRestarting ≠ 0 ↔ s = "auto-restart") ∧
    (statusBitsOf l a s &&& SystemdDStatusDead ≠ 0 ↔ s = "dead") ∧
    (statusBitsOf l a s &&& SystemDStatusUnknown ≠ 0 ↔
      (s ≠ "running" ∧ s ≠ "auto-restart" ∧ s ≠ "dead")) ∧
    (∀ env service tr st, systemdStatus env service = (tr, .ok st) →
      ∃ lf af sf, st = statusBitsOf lf af sf) := by
  refine ⟨?_, ?_, ?_, ?_, ?_, ?_⟩
  case _ =>
    simp only [statusBitsOf]
    split_ifs <;> (subst_vars; decide)
  rotate_right 1
  case _ =>
    intro env service tr st h
    simp only [systemdStatus] at h
    split at h
    · simp at h
    · split at h
      · simp at h
      · simp only [Prod.mk.injEq, Except.ok.injEq] at h
        exact ⟨_, _, _, h.2.symm⟩
  all_goals
    simp only [statusBitsOf]
    split_ifs <;>
      first
        | (subst_vars; decide)
        | (exact iff_of_false (by decide) (by assumption))
        | (exact Iff.intro (fun _ => ⟨by assumption, by assumption, by assumption⟩)
            (fun _ => by decide))

theorem podRunning_lor_set (x : Nat) : (x ||| PodRunning) &&& PodRunning ≠ 0 := by
  have h : PodRunning = 2 ^ 7 := rfl
  rw [h]
  exact lor_two_pow_and_self x 7

theorem kubeletInitialized_lor_set (x : Nat) :
    (x ||| KubeletInitialized) &&& KubeletInitialized ≠ 0 := by
  have h : KubeletInitialized = 2 ^ 6 := rfl
  rw [h]
  exact lor_two_pow_and_self x 6

theorem etcdHostStep_config (q : HostConfig → Option EtcdReport) (h : Host) :
    (etcdHostStep q h).config = h.config := by
  unfold etcdHostStep
  split <;> (try split) <;> rfl

theorem etcdHostStep_isInCluster (q : HostConfig → Option EtcdReport) (h : Host) :
    (etcdHostStep q h).isInCluster = h.isInCluster := by
  unfold etcdHostStep
  split <;> (try split) <;> rfl

theorem etcdHostStep_none {q : HostConfig → Option EtcdReport} {h : Host}
    (hq : q h.config = none) : etcdHostStep q h = h := by
  unfold etcdHostStep
  rw [hq]

theorem etcdHostStep_bit {q : HostConfig → Option EtcdReport} {h : Host}
    (h0 : h.etcd.status &&& PodRunning = 0) :
    ((etcdHostStep q h).etcd.status &&& PodRunning ≠ 0 ↔
      ∃ st, q h.config = some st ∧ st.member = true ∧ st.health = true) := by
  unfold etcdHostStep
  cases hq : q h.config with
  | none =>
    simp only [h0, hq]
    constructor
    · intro hc
      exact absurd rfl hc
    · rintro ⟨st, hst, -⟩
      cases hst
  | some st =>
    by_cases hmh : st.member && st.health
    · simp only [hq, if_pos hmh]
      constructor
      · intro _
        exact ⟨st, rfl, (Bool.and_eq_true _ _ |>.mp hmh).1, (Bool.and_eq_true _ _ |>.mp hmh).2⟩
      · intro _
        exact podRunning_lor_set _
    · simp only [hq, if_neg hmh]
      constructor
      · intro hc
        exact absurd h0 hc
      · rintro ⟨st2, hst, hm, hh⟩
        rw [Option.some.injEq] at hst
        subst hst
        rw [hm, hh] at hmh
        exact absurd rfl hmh

theorem electLeader_all_unhealthy {q : HostConfig → ApiserverReport × Option String}
    (hs : List Host) (e : Bool)
    (hq : ∀ h ∈ hs, ((q h.config).1).health = false) :
    electLeader q hs e = (hs, e) := by
  induction hs with
  | nil => rfl
  | cons h t ih =>
    have hh : ((q h.config).1).health = false := hq h (List.mem_cons_self h t)
    simp only [electLeader, hh]
    rw [if_neg Bool.false_ne_true, ih fun x hx => hq x (List.mem_cons_of_mem h hx)]

theorem electLeader_congr {q q' : HostConfig → ApiserverReport × Option String}
    (hagree : ∀ c, (q c).1 = (q' c).1) (hs : List Host) (e : Bool) :
    electLeader q hs e = electLeader q' hs e := by
  induction hs generalizing e with
  | nil => rfl
  | cons h t ih =>
    simp only [electLeader, hagree h.config, ih]

theorem electLeader_mem {q : HostConfig → ApiserverReport × Option String}
    {hs : List Host} {e : Bool} {x : Host} (hm : x ∈ (electLeader q hs e).1) :
    ∃ h ∈ hs, x.config.hostname = h.config.hostname ∧
      x.isInCluster = h.isInCluster ∧ x.etcd = h.etcd := by
  induction hs generalizing e with
  | nil => cases hm
  | cons h t ih =>
    simp only [electLeader] at hm
    by_cases hq : ((q h.config).1).health = true
    · rw [if_pos hq] at hm
      rcases List.mem_cons.mp hm with hx | hx
      · subst hx
        refine ⟨h, List.mem_cons_self h t, ?_, rfl, rfl⟩
        by_cases he : e = true <;> simp [he]
      · obtain ⟨h2, hh2, hrest⟩ := ih hx
        exact ⟨h2, List.mem_cons_of_mem h hh2, hrest⟩
    · rw [if_neg hq] at hm
      rcases List.mem_cons.mp hm with hx | hx
      · exact ⟨h, List.mem_cons_self h t, by rw [hx], by rw [hx], by rw [hx]⟩
      · obtain ⟨h2, hh2, hrest⟩ := ih hx
        exact ⟨h2, List.mem_cons_of_mem h hh2, hrest⟩

theorem electLeader_map_isLeader (q : HostConfig → ApiserverReport × Option String)
    (hs : List Host) (hcl : ∀ h ∈ hs, h.config.isLeader = false) :
    ((electLeader q hs false).1.map fun h => h.config.isLeader) =
      firstTrue (hs.map fun h => ((q h.config).1).health) ∧
    ((electLeader q hs true).1.map fun h => h.config.isLeader) =
      hs.map fun _ => false := by
  induction hs with
  | nil => exact ⟨rfl, rfl⟩
  | cons h t ih =>
    have hh : h.config.isLeader = false := hcl h (List.mem_cons_self h t)
    obtain ⟨ih1, ih2⟩ := ih fun x hx => hcl x (List.mem_cons_of_mem h hx)
    cases hq : ((q h.config).1).health with
    | true =>
      constructor <;>
        simp [electLeader, hq, firstTrue, ih2, hh, List.map_map, Function.comp]
    | false =>
      constructor <;>
        simp [electLeader, hq, firstTrue, ih1, ih2, hh]

theorem markInCluster_eq_map (names : List String) (known : Finset String)
    (hosts : List Host) :
    markInCluster names known hosts = hosts.map (mark1 names known) := by
  induction names generalizing hosts with
  | nil =>
    exact (List.map_id' hosts).symm
  | cons n ns ih =>
    simp only [markInCluster, List.foldl_cons] at *
    by_cases hn : n ∈ known
    · rw [if_pos hn, ih, List.map_map]
      congr 1
      funext h
      simp [mark1, List.foldl_cons, if_pos hn, Function.comp]
    · rw [if_neg hn, ih]
      congr 1
      funext h
      simp [mark1, List.foldl_cons, if_neg hn]

theorem mark1_of_set (names : List String) (known : Finset String) (h : Host) :
    mark1 names known { h with isInCluster := true } =
      { h with isInCluster := true } := by
  induction names with
  | nil => rfl
  | cons n ns ih =>
    simp only [mark1, List.foldl_cons] at *
    by_cases hn : n ∈ known
    · rw [if_pos hn]
      by_cases hh : ({ h with isInCluster := true } : Host).config.hostname = n
      · rw [if_pos hh]
        exact ih
      · rw [if_neg hh]
        exact ih
    · rw [if_neg hn]
      exact ih

theorem mark1_spec (names : List String) (known : Finset String) (h : Host) :
    mark1 names known h =
      if h.config.hostname ∈ names ∧ h.config.hostname ∈ known then
        { h with isInCluster := true }
      else h := by
  induction names with
  | nil => simp [mark1]
  | cons n ns ih =>
    simp only [mark1, List.foldl_cons] at *
    by_cases hn : n ∈ known
    · rw [if_pos hn]
      by_cases hh : h.config.hostname = n
      · rw [if_pos hh]
        rw [show ns.foldl _ ({ h with isInCluster := true } : Host) =
            mark1 ns known { h with isInCluster := true } from rfl,
          mark1_of_set]
        rw [if_pos ⟨by rw [hh]; exact List.mem_cons_self n ns, by rw [hh]; exact hn⟩]
      · rw [if_neg hh, ih]
        simp [List.mem_cons, hh]
    · rw [if_neg hn, ih]
      by_cases hh : h.config.hostname = n
      · rw [hh]
        simp [hn]
      · simp [List.mem_cons, hh]

theorem mark1_config (names : List String) (known : Finset String) (h : Host) :
    (mark1 names known h).config = h.config := by
  rw [mark1_spec]
  split <;> rfl

theorem electLeader_map_hostname (q : HostConfig → ApiserverReport × Option String)
    (hs : List Host) (e : Bool) :
    ((electLeader q hs e).1.map fun h => h.config.hostname) =
      hs.map fun h => h.config.hostname := by
  induction hs generalizing e with
  | nil => rfl
  | cons h t ih =>
    by_cases hq : ((q h.config).1).health = true
    · simp only [electLeader, if_pos hq, List.map_cons, ih]
      by_cases he : e = true <;> simp [he]
    · simp only [electLeader, if_neg hq, List.map_cons, ih]

theorem etcdPhase_map_config (q : HostConfig → Option EtcdReport) (hs : List Host) :
    ((etcdPhase q hs).map fun h => h.config) = hs.map fun h => h.config := by
  simp only [etcdPhase, List.map_map]
  exact List.map_congr_left fun h _ => etcdHostStep_config q h

theorem markInCluster_map_config (names : List String) (known : Finset String)
    (hs : List Host) :
    ((markInCluster names known hs).map fun h => h.config) = hs.map fun h => h.config := by
  rw [markInCluster_eq_map]
  simp only [List.map_map]
  exact List.map_congr_left fun h _ => mark1_config names known h

theorem map_isLeader_of_map_config {hs hs2 : List Host}
    (h : (hs.map fun x => x.config) = hs2.map fun x => x.config) :
    (hs.map fun x => x.config.isLeader) = hs2.map fun x => x.config.isLeader := by
  have h2 := congrArg (List.map fun c : HostConfig => c.isLeader) h
  simpa [List.map_map, Function.comp] using h2

theorem map_hostname_of_map_config {hs hs2 : List Host}
    (h : (hs.map fun x => x.config) = hs2.map fun x => x.config) :
    (hs.map fun x => x.config.hostname) = hs2.map fun x => x.config.hostname := by
  have h2 := congrArg (List.map fun c : HostConfig => c.hostname) h
  simpa [List.map_map, Function.comp] using h2

theorem firstTrue_count (l : List Bool) : (firstTrue l).count true ≤ 1 := by
  induction l with
  | nil => simp [firstTrue]
  | cons b t ih =>
    cases b with
    | true =>
      have h0 : (List.replicate t.length false).count true = 0 := by
        simp [List.count_eq_zero, List.mem_replicate]
      simp [firstTrue, h0]
    | false =>
      simpa [firstTrue] using ih

/-- C1: during reconciliation, leader election first clears every host\'s
leader flag and then iterates hosts in the fixed configured order querying
API-server health; the first host reported healthy is marked leader (the
leader-flag list is `firstTrue` of the per-host health list), so for
hosts ordered [A(unhealthy), B(healthy), C(healthy)] host B is elected and
not C, and after reconciliation at most one host has its leader flag
true. -/
theorem investigate_leader_first_healthy (inp : InvInput) (hosts : List Host)
    (hp : isProvisioned hosts = true) :
    ((investigateCluster inp hosts).1.map fun h => h.config.isLeader) =
      firstTrue (hosts.map fun h =>
        ((inp.apiserverGet { h.config with isLeader := false }).1).health) ∧
    ((investigateCluster inp hosts).1.map fun h => h.config.isLeader).count true ≤ 1 := by
  have hcl : ∀ x ∈ hosts.map clearLeaderHost, x.config.isLeader = false := by
    intro x hx
    obtain ⟨h, _, rfl⟩ := List.mem_map.mp hx
    rfl
  have hA := (electLeader_map_isLeader inp.apiserverGet (hosts.map clearLeaderHost) hcl).1
  have hA2 : ((electLeader inp.apiserverGet (hosts.map clearLeaderHost) false).1.map
      fun h => h.config.isLeader) =
      firstTrue (hosts.map fun h =>
        ((inp.apiserverGet { h.config with isLeader := false }).1).health) := by
    rw [hA, List.map_map]
    rfl
  suffices hmain : ((investigateCluster inp hosts).1.map fun h => h.config.isLeader) =
      ((electLeader inp.apiserverGet (hosts.map clearLeaderHost) false).1.map
        fun h => h.config.isLeader) by
    refine ⟨hmain.trans hA2, ?_⟩
    rw [hmain.trans hA2]
    exact firstTrue_count _
  simp only [investigateCluster, hp, Bool.not_true]
  rw [if_neg Bool.false_ne_true]
  rcases hr : electLeader inp.apiserverGet (hosts.map clearLeaderHost) false with ⟨hs1, b⟩
  cases b with
  | false => rfl
  | true =>
    rcases hml : inp.etcdMemberList with e | ms
    · rfl
    · rcases hnl : inp.nodeList with e2 | names
      · exact map_isLeader_of_map_config (etcdPhase_map_config _ _)
      · exact map_isLeader_of_map_config
          ((markInCluster_map_config _ _ _).trans (etcdPhase_map_config _ _))

/-- C1 witness: on the concrete three-host cluster with A unhealthy and
B, C healthy, host B (and only host B) ends up with the leader flag. -/
theorem investigate_leader_first_healthy_witness :
    isProvisioned hostsABC = true ∧
    ((investigateCluster inpABC hostsABC).1.map fun h => h.config.isLeader) =
      [false, true, false] ∧
    ((investigateCluster inpABC hostsABC).1.map fun h => h.config.isLeader).count true ≤ 1 := by
  have h := investigate_leader_first_healthy inpABC hostsABC (by decide)
  exact ⟨by decide, h.1.trans (by decide), h.2⟩

/-- C2: if no control-plane host reports a healthy API server,
reconciliation fails with the quorum-lost error, the later phases (etcd,
node-set diff) leave no trace on the result (the post-call state is
exactly the input with all leader flags cleared), and after the call no
host has its leader flag set. -/
theorem investigate_quorum_lost (inp : InvInput) (hosts : List Host)
    (hp : isProvisioned hosts = true)
    (hq : ∀ c : HostConfig, ((inp.apiserverGet c).1).health = false) :
    investigateCluster inp hosts = (hosts.map clearLeaderHost, .error .quorumLost) ∧
    ∀ h ∈ (investigateCluster inp hosts).1, h.config.isLeader = false := by
  have hel := electLeader_all_unhealthy (hosts.map clearLeaderHost) false
    (fun x _ => hq x.config)
  have hmain : investigateCluster inp hosts =
      (hosts.map clearLeaderHost, .error .quorumLost) := by
    simp only [investigateCluster, hp, Bool.not_true]
    rw [if_neg Bool.false_ne_true, hel]
    rfl
  refine ⟨hmain, ?_⟩
  rw [hmain]
  intro h hm
  obtain ⟨h0, _, rfl⟩ := List.mem_map.mp hm
  rfl

/-- C2 witness: the concrete three-host cluster with every host unhealthy
yields the quorum-lost error and leaves no leader flag set. -/
theorem investigate_quorum_lost_witness :
    isProvisioned hostsABC = true ∧
    investigateCluster inpNoHealth hostsABC =
      (hostsABC.map clearLeaderHost, .error .quorumLost) ∧
    ∀ h ∈ (investigateCluster inpNoHealth hostsABC).1, h.config.isLeader = false := by
  have h := investigate_quorum_lost inpNoHealth hostsABC (by decide) (fun _ => rfl)
  exact ⟨by decide, h.1, h.2⟩

/-- C9: during leader election an error returned by the per-host
API-server health query is discarded: the whole reconciliation result is a
function of the health component of the queries alone, and when every
query fails (error reported, zero-value report with health false) the
result is the quorum-lost error with no leader flag set. -/
theorem investigate_apiserver_error_discarded (inp : InvInput)
    (q2 : HostConfig → ApiserverReport × Option String) (hosts : List Host)
    (hagree : ∀ c, (inp.apiserverGet c).1 = (q2 c).1) :
    investigateCluster { inp with apiserverGet := q2 } hosts =
      investigateCluster inp hosts ∧
    (isProvisioned hosts = true →
      (∀ c, ((inp.apiserverGet c).2).isSome = true ∧
        ((inp.apiserverGet c).1).health = false) →
      investigateCluster inp hosts =
        (hosts.map clearLeaderHost, .error .quorumLost) ∧
      ∀ h ∈ (investigateCluster inp hosts).1, h.config.isLeader = false) := by
  constructor
  · simp only [investigateCluster]
    rw [electLeader_congr (fun c => (hagree c).symm) (hosts.map clearLeaderHost) false]
  · intro hp herr
    have hel := electLeader_all_unhealthy (hosts.map clearLeaderHost) false
      (fun x _ => (herr x.config).2)
    have hmain : investigateCluster inp hosts =
        (hosts.map clearLeaderHost, .error .quorumLost) := by
      simp only [investigateCluster, hp, Bool.not_true]
      rw [if_neg Bool.false_ne_true, hel]
      rfl
    refine ⟨hmain, ?_⟩
    rw [hmain]
    intro h hm
    obtain ⟨h0, _, rfl⟩ := List.mem_map.mp hm
    rfl

/-- C9 witness: stripping the errors from an all-failing query changes
nothing, and the all-failing query yields the quorum-lost error. -/
theorem investigate_apiserver_error_discarded_witness :
    investigateCluster { inpAllErr with apiserverGet := apiAllErrStripped } hostsABC =
      investigateCluster inpAllErr hostsABC ∧
    investigateCluster inpAllErr hostsABC =
      (hostsABC.map clearLeaderHost, .error .quorumLost) := by
  have h := investigate_apiserver_error_discarded inpAllErr apiAllErrStripped hostsABC
    (fun c => rfl)
  exact ⟨h.1, (h.2 (by decide) (fun c => ⟨rfl, rfl⟩)).1⟩

/-- C5: a failure of the one-time etcd member-list fetch aborts the whole
reconciliation with that error; the etcd phase itself is a per-host map
(so one host\'s failed lookup never disturbs the others and with both
fetches succeeding reconciliation completes), a host whose lookup returns
the nil report is left untouched, and the Etcd `PodRunning` bit is set
for a host (whose bit was clear) iff its lookup reports both membership
and health. -/
theorem investigate_etcd_phase (inp : InvInput) (hosts : List Host)
    (hp : isProvisioned hosts = true)
    (he : (electLeader inp.apiserverGet (hosts.map clearLeaderHost) false).2 = true) :
    (∀ e, inp.etcdMemberList = .error e →
      investigateCluster inp hosts =
        ((electLeader inp.apiserverGet (hosts.map clearLeaderHost) false).1,
          .error (.memberListFailed e))) ∧
    (∀ ms names, inp.etcdMemberList = .ok ms → inp.nodeList = .ok names →
      ∃ diff, (investigateCluster inp hosts).2 = .ok diff) ∧
    (∀ (q : HostConfig → Option EtcdReport) (hs : List Host) (i : Nat),
      (etcdPhase q hs)[i]? = (hs[i]?).map (etcdHostStep q)) ∧
    (∀ (q : HostConfig → Option EtcdReport) (h : Host), q h.config = none →
      etcdHostStep q h = h) ∧
    (∀ (q : HostConfig → Option EtcdReport) (h : Host),
      h.etcd.status &&& PodRunning = 0 →
      ((etcdHostStep q h).etcd.status &&& PodRunning ≠ 0 ↔
        ∃ st, q h.config = some st ∧ st.member = true ∧ st.health = true)) := by
  refine ⟨?_, ?_, ?_, ?_, ?_⟩
  · intro e hml
    simp only [investigateCluster, hp, Bool.not_true]
    rw [if_neg Bool.false_ne_true]
    rcases hr : electLeader inp.apiserverGet (hosts.map clearLeaderHost) false with ⟨hs1, b⟩
    have hb : b = true := by rw [hr] at he; exact he
    subst hb
    rw [hml]
    rfl
  · intro ms names hml hnl
    simp only [investigateCluster, hp, Bool.not_true]
    rw [if_neg Bool.false_ne_true]
    rcases hr : electLeader inp.apiserverGet (hosts.map clearLeaderHost) false with ⟨hs1, b⟩
    have hb : b = true := by rw [hr] at he; exact he
    subst hb
    rw [hml, hnl]
    exact ⟨_, rfl⟩
  · intro q hs i
    exact List.getElem?_map ..
  · intro q h hq
    exact etcdHostStep_none hq
  · intro q h h0
    exact etcdHostStep_bit h0

/-- C5 witness: concrete member-list failure aborts reconciliation with
that error; with both fetches succeeding reconciliation completes even
though every per-host etcd lookup fails; a failed lookup leaves the host
untouched. -/
theorem investigate_etcd_phase_witness :
    investigateCluster inpEtcdErr hostsABC =
      ((electLeader inpEtcdErr.apiserverGet (hostsABC.map clearLeaderHost) false).1,
        .error (.memberListFailed "member list failed")) ∧
    (∃ diff, (investigateCluster inpABC hostsABC).2 = .ok diff) ∧
    etcdHostStep (fun _ => none) (mkLiveHost cfgA) = mkLiveHost cfgA := by
  have h1 := investigate_etcd_phase inpEtcdErr hostsABC (by decide) (by decide)
  have h2 := investigate_etcd_phase inpABC hostsABC (by decide) (by decide)
  exact ⟨h1.1 "member list failed" rfl, h2.2.1 [] [] rfl rfl, h1.2.2.2.1 _ _ rfl⟩

/-- C8: with every fetch succeeding, the node-set reconciliation returns
exactly the two set differences of configured host identities and live
node names (hosts-to-be-provisioned = configured minus live,
nodes-to-be-removed = live minus configured), and each live host ends up
marked `InCluster` iff its hostname is among the listed node names. -/
theorem investigate_node_diff (inp : InvInput) (hosts : List Host)
    (ms names : List String)
    (hp : isProvisioned hosts = true)
    (he : (electLeader inp.apiserverGet (hosts.map clearLeaderHost) false).2 = true)
    (hml : inp.etcdMemberList = .ok ms)
    (hnl : inp.nodeList = .ok names)
    (hin : ∀ h ∈ hosts, h.isInCluster = false) :
    (investigateCluster inp hosts).2 =
      .ok ((hosts.map fun h => h.config.hostname).toFinset \ names.toFinset,
        names.toFinset \ (hosts.map fun h => h.config.hostname).toFinset) ∧
    ∀ h ∈ (investigateCluster inp hosts).1,
      (h.isInCluster = true ↔ h.config.hostname ∈ names) := by
  rcases hr : electLeader inp.apiserverGet (hosts.map clearLeaderHost) false with ⟨hs1, b⟩
  have hb : b = true := by rw [hr] at he; exact he
  subst hb
  have hmapc : (hs1.map fun h => h.config.hostname) =
      hosts.map fun h => h.config.hostname := by
    have h1 := electLeader_map_hostname inp.apiserverGet (hosts.map clearLeaderHost) false
    rw [hr] at h1
    have h2 : ((hosts.map clearLeaderHost).map fun h => h.config.hostname) =
        hosts.map fun h => h.config.hostname := by
      rw [List.map_map]
      rfl
    exact h1.trans h2
  have hmap3 : ((etcdPhase (inp.etcdGet ms) hs1).map fun h => h.config.hostname) =
      hosts.map fun h => h.config.hostname :=
    (map_hostname_of_map_config (etcdPhase_map_config _ _)).trans hmapc
  have hresult : investigateCluster inp hosts =
      (markInCluster names
          ((etcdPhase (inp.etcdGet ms) hs1).map fun h => h.config.hostname).toFinset
          (etcdPhase (inp.etcdGet ms) hs1),
        .ok ((((etcdPhase (inp.etcdGet ms) hs1).map fun h => h.config.hostname).toFinset \
            names.toFinset),
          (names.toFinset \
            ((etcdPhase (inp.etcdGet ms) hs1).map fun h => h.config.hostname).toFinset))) := by
    simp only [investigateCluster, hp, Bool.not_true]
    rw [if_neg Bool.false_ne_true, hr, hml, hnl]
    rfl
  constructor
  · rw [hresult, hmap3]
  · rw [hresult]
    intro h hm
    rw [markInCluster_eq_map] at hm
    obtain ⟨h3, hm3, rfl⟩ := List.mem_map.mp hm
    have hknown : h3.config.hostname ∈
        ((etcdPhase (inp.etcdGet ms) hs1).map fun h => h.config.hostname).toFinset :=
      List.mem_toFinset.mpr (List.mem_map_of_mem _ hm3)
    have hfalse : h3.isInCluster = false := by
      obtain ⟨h2, hm2, rfl⟩ := List.mem_map.mp hm3
      rw [etcdHostStep_isInCluster]
      have hmem : h2 ∈ (electLeader inp.apiserverGet (hosts.map clearLeaderHost) false).1 := by
        rw [hr]
        exact hm2
      obtain ⟨h1, hm1, _, hics, _⟩ := electLeader_mem hmem
      obtain ⟨h0, hm0, rfl⟩ := List.mem_map.mp hm1
      rw [hics]
      exact hin h0 hm0
    rw [mark1_spec]
    by_cases hc : h3.config.hostname ∈ names ∧ h3.config.hostname ∈
        ((etcdPhase (inp.etcdGet ms) hs1).map fun h => h.config.hostname).toFinset
    · rw [if_pos hc]
      exact iff_of_true rfl hc.1
    · rw [if_neg hc]
      exact iff_of_false (by rw [hfalse]; exact Bool.false_ne_true)
        (fun hn => hc ⟨hn, hknown⟩)

/-- C8 witness: configured hosts h1, h2, h3 against live nodes h2, h3, h4
yield hosts-to-be-provisioned = h1 and nodes-to-be-removed = h4, and the
hosts are marked in-cluster accordingly. -/
theorem investigate_node_diff_witness :
    (investigateCluster inpNodes234 hosts123).2 =
      .ok ((hosts123.map fun h => h.config.hostname).toFinset \
          (["h2", "h3", "h4"] : List String).toFinset,
        (["h2", "h3", "h4"] : List String).toFinset \
          (hosts123.map fun h => h.config.hostname).toFinset) ∧
    ((investigateCluster inpNodes234 hosts123).1.map fun h => h.isInCluster) =
      [false, true, true] := by
  have h := investigate_node_diff inpNodes234 hosts123 [] ["h2", "h3", "h4"]
    (by decide) (by decide) rfl rfl (by decide)
  exact ⟨h.1, by decide⟩

/-- C4: the kubelet-initialized check interprets the marker-file command
result three ways: exit code 0 without a reported error sets the
`Initialized` bit and succeeds; a positive exit code leaves the host
untouched (bit unset) and is not an error; a reported error together with
a negative/indeterminate (non-positive) exit code propagates as an error
with the bit unset. -/
theorem kubeletInitialized_three_way (env : ProbeEnv) (host : Host) (r : ExecResult)
    (hr : env.exec kubeletInitializedCMD = r) :
    (r.err = none → r.exitcode = 0 →
      detectKubeletInitialized env host =
        ([kubeletInitializedCMD],
          .ok { host with
            kubelet.status := host.kubelet.status ||| KubeletInitialized })) ∧
    (0 < r.exitcode →
      detectKubeletInitialized env host = ([kubeletInitializedCMD], .ok host)) ∧
    (∀ e, r.err = some e → r.exitcode ≤ 0 →
      detectKubeletInitialized env host =
        ([kubeletInitializedCMD], .error (.execFailed e))) := by
  refine ⟨?_, ?_, ?_⟩
  · intro hn h0
    simp [detectKubeletInitialized, hr, hn, h0]
  · intro hpos
    have h1 : ¬(r.err.isSome = true ∧ r.exitcode ≤ 0) :=
      fun hc => absurd hpos (not_lt.mpr hc.2)
    have h2 : ¬(r.exitcode = 0) := by
      intro h0
      rw [h0] at hpos
      exact lt_irrefl 0 hpos
    simp only [detectKubeletInitialized, hr]
    rw [if_neg h1, if_neg h2]
  · intro e he hle
    simp only [detectKubeletInitialized, hr, he]
    rw [if_pos ⟨rfl, hle⟩]
    rfl

/-- C4 witness: evaluation at the three concrete result shapes. -/
theorem kubeletInitialized_three_way_witness :
    detectKubeletInitialized envInitOK hostBare =
      ([kubeletInitializedCMD],
        .ok { hostBare with
          kubelet.status := hostBare.kubelet.status ||| KubeletInitialized }) ∧
    detectKubeletInitialized envInitPos hostBare =
      ([kubeletInitializedCMD], .ok hostBare) ∧
    detectKubeletInitialized envInitNeg hostBare =
      ([kubeletInitializedCMD], .error (.execFailed "session problem")) := by
  have h1 := kubeletInitialized_three_way envInitOK hostBare _ rfl
  have h2 := kubeletInitialized_three_way envInitPos hostBare _ rfl
  have h3 := kubeletInitialized_three_way envInitNeg hostBare _ rfl
  exact ⟨h1.1 rfl rfl, h2.2.1 (by decide),
    h3.2.2 "session problem" rfl (by decide)⟩

/-- C10: in the kubelet-initialized check the error branch is taken
whenever an error is reported together with an exit code `<= 0` — also
when the exit code is exactly 0 — and (for a host whose bit starts clear)
the `Initialized` bit ends up set exactly when the exit code is 0 and no
error was reported. -/
theorem kubeletInitialized_error_zero_exit (env : ProbeEnv) (host : Host) (r : ExecResult)
    (hr : env.exec kubeletInitializedCMD = r)
    (hbit : host.kubelet.status &&& KubeletInitialized = 0) :
    (∀ e, r.err = some e → r.exitcode ≤ 0 →
      detectKubeletInitialized env host =
        ([kubeletInitializedCMD], .error (.execFailed e))) ∧
    (∀ e, r.err = some e → r.exitcode = 0 →
      detectKubeletInitialized env host =
        ([kubeletInitializedCMD], .error (.execFailed e))) ∧
    (∀ tr h2, detectKubeletInitialized env host = (tr, .ok h2) →
      (h2.kubelet.status &&& KubeletInitialized ≠ 0 ↔
        (r.exitcode = 0 ∧ r.err = none))) := by
  refine ⟨?_, ?_, ?_⟩
  · intro e he hle
    simp only [detectKubeletInitialized, hr, he]
    rw [if_pos ⟨rfl, hle⟩]
    rfl
  · intro e he h0
    simp only [detectKubeletInitialized, hr, he]
    rw [if_pos ⟨rfl, le_of_eq h0⟩]
    rfl
  · intro tr h2 hres
    simp only [detectKubeletInitialized, hr] at hres
    by_cases hc : r.err.isSome = true ∧ r.exitcode ≤ 0
    · rw [if_pos hc] at hres
      simp at hres
    · rw [if_neg hc] at hres
      by_cases h0 : r.exitcode = 0
      · rw [if_pos h0] at hres
        simp only [Prod.mk.injEq, Except.ok.injEq] at hres
        obtain ⟨-, hh2⟩ := hres
        subst hh2
        have hnone : r.err = none := by
          cases herr : r.err with
          | none => rfl
          | some e => exact absurd ⟨by rw [herr]; rfl, le_of_eq h0⟩ hc
        exact iff_of_true (kubeletInitialized_lor_set _) ⟨h0, hnone⟩
      · rw [if_neg h0] at hres
        simp only [Prod.mk.injEq, Except.ok.injEq] at hres
        obtain ⟨-, hh2⟩ := hres
        subst hh2
        exact iff_of_false (fun hb => hb hbit) (fun hx => h0 hx.1)

/-- C10 witness: an error reported with exit code exactly 0 takes the
error branch, and a clean exit sets the bit. -/
theorem kubeletInitialized_error_zero_exit_witness :
    (hostBare.kubelet.status &&& KubeletInitialized = 0) ∧
    detectKubeletInitialized envInitErrZero hostBare =
      ([kubeletInitializedCMD], .error (.execFailed "connection error")) := by
  have h := kubeletInitialized_error_zero_exit envInitErrZero hostBare _ rfl (by decide)
  exact ⟨by decide, h.2.1 "connection error" rfl rfl⟩

/-- C6: for an immutable-OS-family host (flatcar/coreos) with the
component installed, the container-runtime check executes no
version-extraction command (only the status command) and assigns the
zero/sentinel version, while the kubelet check instead also executes the
kubelet CLI self-report command; for any other/unknown OS family both
checks execute only the status command, report no error, and leave the
version field untouched. -/
theorem osFamily_version_commands (env : ProbeEnv) (host : Host) (std skd : Nat)
    (hsd : (systemdStatus env "docker").2 = .ok std)
    (hsdi : std &&& ComponentInstalled ≠ 0)
    (hsk : (systemdStatus env "kubelet").2 = .ok skd)
    (hski : skd &&& ComponentInstalled ≠ 0) :
    ((host.config.operatingSystem = .flatcar ∨ host.config.operatingSystem = .coreos) →
      detectDockerStatusVersion env host =
        ([systemdShowStatusFor "docker"],
          .ok { host with
            containerRuntime := { status := std, version := some Version.zero } }) ∧
      (detectKubeletStatusVersion env host).1 =
        [systemdShowStatusFor "kubelet", kubeletVersionCLI]) ∧
    (∀ osname, host.config.operatingSystem = .other osname →
      detectDockerStatusVersion env host =
        ([systemdShowStatusFor "docker"],
          .ok { host with containerRuntime.status := std }) ∧
      detectKubeletStatusVersion env host =
        ([systemdShowStatusFor "kubelet"],
          .ok { host with kubelet.status := skd })) := by
  have hpairD : systemdStatus env "docker" =
      ([systemdShowStatusFor "docker"], .ok std) := by
    rw [← hsd]
    exact Prod.mk.eta.symm
  have hpairK : systemdStatus env "kubelet" =
      ([systemdShowStatusFor "kubelet"], .ok skd) := by
    rw [← hsk]
    exact Prod.mk.eta.symm
  constructor
  · intro hos
    constructor
    · simp only [detectDockerStatusVersion, hpairD]
      rw [if_neg hsdi]
      rcases hos with hf | hc
      · rw [hf]
      · rw [hc]
    · simp only [detectKubeletStatusVersion, hpairK]
      rw [if_neg hski]
      rcases hos with hf | hc
      · rw [hf]
        rfl
      · rw [hc]
        rfl
  · intro osname hos
    constructor
    · simp only [detectDockerStatusVersion, hpairD]
      rw [if_neg hsdi, hos]
    · simp only [detectKubeletStatusVersion, hpairK]
      rw [if_neg hski, hos]

/-- C6 witness: a flatcar host gets the zero version with no version
command, its kubelet check issues the CLI command, and an unknown-OS host
is skipped silently by both checks. -/
theorem osFamily_version_commands_witness :
    detectDockerStatusVersion envVersionOK hostFlat =
      ([systemdShowStatusFor "docker"],
        .ok { hostFlat with
          containerRuntime := { status := statusBitsOf "loaded" "active" "running",
                                version := some Version.zero } }) ∧
    (detectKubeletStatusVersion envVersionOK hostFlat).1 =
      [systemdShowStatusFor "kubelet", kubeletVersionCLI] ∧
    detectDockerStatusVersion envVersionOK hostOther =
      ([systemdShowStatusFor "docker"],
        .ok { hostOther with
          containerRuntime.status := statusBitsOf "loaded" "active" "running" }) ∧
    detectKubeletStatusVersion envVersionOK hostOther =
      ([systemdShowStatusFor "kubelet"],
        .ok { hostOther with
          kubelet.status := statusBitsOf "loaded" "active" "running" }) := by
  have h1 := osFamily_version_commands envVersionOK hostFlat
    (statusBitsOf "loaded" "active" "running") (statusBitsOf "loaded" "active" "running")
    rfl (by decide) rfl (by decide)
  have h2 := osFamily_version_commands envVersionOK hostOther
    (statusBitsOf "loaded" "active" "running") (statusBitsOf "loaded" "active" "running")
    rfl (by decide) rfl (by decide)
  exact ⟨(h1.1 (Or.inl rfl)).1, (h1.1 (Or.inl rfl)).2,
    (h2.2 "sles" rfl).1, (h2.2 "sles" rfl).2⟩

/-- C7 counterexample: in the kubelet check a malformed version output
fails with the bare parse error, which does not carry the raw output
string (it is structurally different from every raw-carrying
`versionWas` error), contradicting the claim that both checks fail with a
version-parse error carrying the raw output. -/
theorem kubelet_parse_error_lacks_raw :
    detectKubeletStatusVersion envBadVersion hostUbu =
      ([systemdShowStatusFor "kubelet", kubeletVersionDPKG],
        .error (.semverFailed "Invalid Semantic Version")) ∧
    ∀ raw msg, ProbeError.semverFailed "Invalid Semantic Version" ≠
      ProbeError.versionWas raw msg := by
  constructor
  · rfl
  · intro raw msg h
    exact ProbeError.noConfusion h

/-- C7 (amended): whenever a version-extraction command is run, in both
checks the output is whitespace-trimmed and parsed as a semantic version;
malformed output fails the container-runtime check with the parse error
wrapped together with the raw output string, while the kubelet check
propagates the bare parse error without the raw output. -/
theorem versionRun_trim_parse (env : ProbeEnv) (cmd : String) (host : Host)
    (r : ExecResult) (hr : env.exec cmd = r) (hok : r.err = none) :
    (∀ e, env.semverNewVersion (trimSpace r.stdout) = .error e →
      dockerVersionRun env cmd host = .error (.versionWas r.stdout e) ∧
      kubeletVersionRun env cmd host = .error (.semverFailed e)) ∧
    (∀ v, env.semverNewVersion (trimSpace r.stdout) = .ok v →
      dockerVersionRun env cmd host =
        .ok { host with containerRuntime.version := some v } ∧
      kubeletVersionRun env cmd host =
        .ok { host with kubelet.version := some v }) := by
  constructor
  · intro e hp
    constructor
    · simp only [dockerVersionRun, hr, hok, hp]
    · simp only [kubeletVersionRun, hr, hok, hp]
  · intro v hp
    constructor
    · simp only [dockerVersionRun, hr, hok, hp]
    · simp only [kubeletVersionRun, hr, hok, hp]

/-- C7 witness: with output " 1.2.3" followed by a newline both checks
parse the trimmed "1.2.3"; with output "garbage" the runtime check wraps
the raw output while the kubelet check returns the bare parse error. -/
theorem versionRun_trim_parse_witness :
    dockerVersionRun envVersionOK dockerVersionDPKG hostUbu =
      .ok { hostUbu with containerRuntime.version := some ⟨1, 2, 3⟩ } ∧
    dockerVersionRun envBadVersion dockerVersionDPKG hostUbu =
      .error (.versionWas "garbage" "Invalid Semantic Version") ∧
    kubeletVersionRun envBadVersion kubeletVersionDPKG hostUbu =
      .error (.semverFailed "Invalid Semantic Version") := by
  have hgood := versionRun_trim_parse envVersionOK dockerVersionDPKG hostUbu _ rfl rfl
  have hbad := versionRun_trim_parse envBadVersion dockerVersionDPKG hostUbu _ rfl rfl
  have hbadK := versionRun_trim_parse envBadVersion kubeletVersionDPKG hostUbu _ rfl rfl
  exact ⟨(hgood.2 ⟨1, 2, 3⟩ rfl).1, (hbad.1 "Invalid Semantic Version" rfl).1,
    (hbadK.1 "Invalid Semantic Version" rfl).2⟩

end Probes

